import Mathlib

/-!
Verification of the configuration-driven range/format resolution engine and
chart-series construction algorithm of `AwrONE_html_to_excel.py`.

Strings are modelled as `List Char` so that every operation is a structural
recursion that the kernel can evaluate.  Python's `str.split`, `str.strip`,
`str.replace`, `int(...)` and `float(...)` (as a recogniser) are embedded
faithfully for the ASCII fragment exercised by the program.
-/

/-- Python whitespace characters (`str.strip()` / `int()` / `float()` strip set,
ASCII fragment). -/
def isPyWS (c : Char) : Bool :=
  c == ' ' || c == '\t' || c == '\n' || c == '\r' || c == '\x0b' || c == '\x0c'

/-- Python `s.strip()` on a character list. -/
def stripWS (l : List Char) : List Char :=
  ((l.dropWhile isPyWS).reverse.dropWhile isPyWS).reverse

/-- Python `s.strip(cs)`: remove any of the characters `cs` from both ends. -/
def stripChars (cs : List Char) (l : List Char) : List Char :=
  ((l.dropWhile (cs.contains ·)).reverse.dropWhile (cs.contains ·)).reverse

/-- Python `s.rstrip(cs)`: remove any of the characters `cs` from the right end. -/
def rstripChars (cs : List Char) (l : List Char) : List Char :=
  (l.reverse.dropWhile (cs.contains ·)).reverse

/-- Python `s.replace(c, t)` for a single-character pattern `c`. -/
def replaceChar (c : Char) (t : List Char) : List Char → List Char
  | [] => []
  | x :: r => if x = c then t ++ replaceChar c t r else x :: replaceChar c t r

/-- Python `s.split(sep)` for single-character separators (also models
`re.split` over a character class): empty fields are kept, and splitting the
empty string yields one empty field. -/
def charSplit (p : Char → Bool) : List Char → List (List Char)
  | [] => [[]]
  | c :: r =>
    if p c then [] :: charSplit p r
    else
      match charSplit p r with
      | [] => [[c]]
      | g :: gs => (c :: g) :: gs

/-- Python `s.split(c, 1)` restricted to the success case: `none` when the
separator is absent (where the source's `[1]` would raise `IndexError`). -/
def splitFirst (c : Char) : List Char → Option (List Char × List Char)
  | [] => none
  | x :: r =>
    if x = c then some ([], r)
    else (splitFirst c r).map (fun pr => (x :: pr.1, pr.2))

/-- Numeric value of an ASCII digit character. -/
def digitVal (c : Char) : Nat := c.toNat - 48

/-- Consume a run `digit (digit | '_' digit)*` accumulating its decimal value,
following CPython's rule that an underscore must sit between two digits.
Returns the accumulated value and the unconsumed remainder. -/
def digitsValCont : Nat → List Char → Nat × List Char
  | acc, [] => (acc, [])
  | acc, c :: r =>
    if c.isDigit then digitsValCont (acc * 10 + digitVal c) r
    else if c = '_' then
      match r with
      | d :: r2 =>
        if d.isDigit then digitsValCont (acc * 10 + digitVal d) r2
        else (acc, c :: d :: r2)
      | [] => (acc, [c])
    else (acc, c :: r)

/-- Consume a nonempty digit run (underscores allowed between digits), returning
the remainder; `none` when the input does not start with a digit. -/
def runDigits (l : List Char) : Option (List Char) :=
  match l with
  | c :: r => if c.isDigit then some (digitsValCont (digitVal c) r).2 else none
  | [] => none

/-- Magnitude part of Python `int(s)`: a nonempty digit run spanning the whole
input. -/
def pyIntMag (l : List Char) : Option Nat :=
  match l with
  | c :: r =>
    if c.isDigit then
      match digitsValCont (digitVal c) r with
      | (v, rest) => if rest = [] then some v else none
    else none
  | [] => none

/-- Python `int(s)` after whitespace stripping: an optional sign then digits. -/
def pyIntAfterStrip (l : List Char) : Option Int :=
  match l with
  | [] => none
  | c :: r =>
    if c = '+' then (pyIntMag r).map Int.ofNat
    else if c = '-' then (pyIntMag r).map (fun v => -(Int.ofNat v))
    else (pyIntMag (c :: r)).map Int.ofNat

/-- Python `int(s)` (base 10, ASCII fragment): `none` models `ValueError`. -/
def pyInt (l : List Char) : Option Int := pyIntAfterStrip (stripWS l)

/-- Fuelled decimal printer mirroring Python `str(n)` for a nonnegative `n`
(and CPython's digit-by-digit construction). -/
def natToCharsCore : Nat → Nat → List Char → List Char
  | 0, _, ds => ds
  | fuel + 1, n, ds =>
    let d := Char.ofNat (48 + n % 10)
    if n / 10 = 0 then d :: ds else natToCharsCore fuel (n / 10) (d :: ds)

/-- Python `str(n)` for a natural number. -/
def natToChars (n : Nat) : List Char := natToCharsCore (n + 1) n []

/-- Drop one optional leading sign character. -/
def dropSign (l : List Char) : List Char :=
  match l with
  | c :: r => if c = '+' || c = '-' then r else c :: r
  | [] => []

/-- Case-insensitive comparison with `float`'s special words `inf`, `infinity`
and `nan`. -/
def isInfNanCI (l : List Char) : Bool :=
  let low := l.map Char.toLower
  low == "inf".toList || low == "infinity".toList || low == "nan".toList

/-- Optional exponent part of a float literal (`e`/`E`, optional sign, digits),
or end of input. -/
def floatExpo (r : List Char) : Bool :=
  match r with
  | [] => true
  | c :: r2 =>
    if c = 'e' || c = 'E' then
      match runDigits (dropSign r2) with
      | some [] => true
      | _ => false
    else false

/-- After the integer part of a mantissa: optional fraction then exponent. -/
def afterIntPart (rest : List Char) : Bool :=
  match rest with
  | '.' :: r2 =>
    (match runDigits r2 with
     | some r3 => floatExpo r3
     | none => floatExpo r2)
  | _ => floatExpo rest

/-- Numeric (non-`inf`/`nan`) body of a Python float literal. -/
def floatNumber (l : List Char) : Bool :=
  match l with
  | [] => false
  | c :: r =>
    if c = '.' then
      match runDigits r with
      | some rest => floatExpo rest
      | none => false
    else
      match runDigits (c :: r) with
      | some rest => afterIntPart rest
      | none => false

/-- Recogniser for Python `float(s)` (ASCII fragment): `true` exactly when the
conversion would succeed. -/
def pyFloatAccepts (l : List Char) : Bool :=
  let l1 := dropSign (stripWS l)
  isInfNanCI l1 || floatNumber l1

/-- Python `text.replace(',', '')`. -/
def removeCommas (l : List Char) : List Char := l.filter (· != ',')

/-- Source `_is_numeric_string`: nonempty text whose comma-stripped form parses
as a float. -/
def isNumericString (l : List Char) : Bool :=
  if l = [] then false else pyFloatAccepts (removeCommas l)

/-- Source `_is_date_string`: length at least 10 and the first ten characters
match `\d{4}-\d{2}-\d{2}`. -/
def isDateString (v : List Char) : Bool :=
  match v with
  | a :: b :: c :: d :: '-' :: e2 :: f2 :: '-' :: g2 :: h2 :: _ =>
    a.isDigit && b.isDigit && c.isDigit && d.isDigit &&
    e2.isDigit && f2.isDigit && g2.isDigit && h2.isDigit
  | _ => false

/-- Match exactly four digits, returning their value and the remainder
(`strptime`'s `%Y`). -/
def year4 (l : List Char) : Option (Nat × List Char) :=
  match l with
  | a :: b :: c :: d :: rest =>
    if a.isDigit && b.isDigit && c.isDigit && d.isDigit then
      some ((((digitVal a) * 10 + digitVal b) * 10 + digitVal c) * 10 + digitVal d, rest)
    else none
  | _ => none

/-- Match one literal character. -/
def litChar (c : Char) (l : List Char) : Option (List Char) :=
  match l with
  | x :: r => if x = c then some r else none
  | [] => none

/-- Candidates for `strptime`'s `%m` (`1[0-2]|0[1-9]|[1-9]`), in regex
alternation order. -/
def monthAlts (l : List Char) : List (Nat × List Char) :=
  (match l with
   | '1' :: d :: r => if decide ('0' ≤ d ∧ d ≤ '2') then [(10 + digitVal d, r)] else []
   | _ => []) ++
  (match l with
   | '0' :: d :: r => if decide ('1' ≤ d ∧ d ≤ '9') then [(digitVal d, r)] else []
   | _ => []) ++
  (match l with
   | d :: r => if decide ('1' ≤ d ∧ d ≤ '9') then [(digitVal d, r)] else []
   | _ => [])

/-- Candidates for `strptime`'s `%d` (`3[01]|[12]\d|0[1-9]|[1-9]`). -/
def dayAlts (l : List Char) : List (Nat × List Char) :=
  (match l with
   | '3' :: d :: r => if decide ('0' ≤ d ∧ d ≤ '1') then [(30 + digitVal d, r)] else []
   | _ => []) ++
  (match l with
   | c :: d :: r =>
     if (c = '1' || c = '2') && d.isDigit then [(digitVal c * 10 + digitVal d, r)] else []
   | _ => []) ++
  (match l with
   | '0' :: d :: r => if decide ('1' ≤ d ∧ d ≤ '9') then [(digitVal d, r)] else []
   | _ => []) ++
  (match l with
   | d :: r => if decide ('1' ≤ d ∧ d ≤ '9') then [(digitVal d, r)] else []
   | _ => [])

/-- Candidates for `strptime`'s `%H` (`2[0-3]|[0-1]\d|\d`). -/
def hourAlts (l : List Char) : List (Nat × List Char) :=
  (match l with
   | '2' :: d :: r => if decide ('0' ≤ d ∧ d ≤ '3') then [(20 + digitVal d, r)] else []
   | _ => []) ++
  (match l with
   | c :: d :: r =>
     if (c = '0' || c = '1') && d.isDigit then [(digitVal c * 10 + digitVal d, r)] else []
   | _ => []) ++
  (match l with
   | d :: r => if d.isDigit then [(digitVal d, r)] else []
   | _ => [])

/-- Candidates for `strptime`'s `%M` (`[0-5]\d|\d`). -/
def minuteAlts (l : List Char) : List (Nat × List Char) :=
  (match l with
   | c :: d :: r =>
     if decide ('0' ≤ c ∧ c ≤ '5') && d.isDigit then [(digitVal c * 10 + digitVal d, r)] else []
   | _ => []) ++
  (match l with
   | d :: r => if d.isDigit then [(digitVal d, r)] else []
   | _ => [])

/-- Candidates for `strptime`'s `%S` (`6[0-1]|[0-5]\d|\d`). -/
def secondAlts (l : List Char) : List (Nat × List Char) :=
  (match l with
   | '6' :: d :: r => if decide ('0' ≤ d ∧ d ≤ '1') then [(60 + digitVal d, r)] else []
   | _ => []) ++
  (match l with
   | c :: d :: r =>
     if decide ('0' ≤ c ∧ c ≤ '5') && d.isDigit then [(digitVal c * 10 + digitVal d, r)] else []
   | _ => []) ++
  (match l with
   | d :: r => if d.isDigit then [(digitVal d, r)] else []
   | _ => [])

/-- Full-string regex match of `strptime(s, "%Y-%m-%d")`, with backtracking in
alternation order. -/
def regexDate (l : List Char) : Option (Nat × Nat × Nat) :=
  match year4 l with
  | none => none
  | some (y, r1) =>
    match litChar '-' r1 with
    | none => none
    | some r2 =>
      (monthAlts r2).findSome? fun md =>
        match litChar '-' md.2 with
        | none => none
        | some r4 =>
          (dayAlts r4).findSome? fun dd =>
            if dd.2 = [] then some (y, md.1, dd.1) else none

/-- Full-string regex match of `strptime(s, "%Y-%m-%dT%H:%M:%S")`. -/
def regexDateTime (l : List Char) : Option (Nat × Nat × Nat × Nat × Nat × Nat) :=
  match year4 l with
  | none => none
  | some (y, r1) =>
    match litChar '-' r1 with
    | none => none
    | some r2 =>
      (monthAlts r2).findSome? fun md =>
        match litChar '-' md.2 with
        | none => none
        | some r4 =>
          (dayAlts r4).findSome? fun dd =>
            match litChar 'T' dd.2 with
            | none => none
            | some r6 =>
              (hourAlts r6).findSome? fun hh =>
                match litChar ':' hh.2 with
                | none => none
                | some r8 =>
                  (minuteAlts r8).findSome? fun mm =>
                    match litChar ':' mm.2 with
                    | none => none
                    | some r10 =>
                      (secondAlts r10).findSome? fun ss =>
                        if ss.2 = [] then some (y, md.1, dd.1, hh.1, mm.1, ss.1) else none

/-- Gregorian month length, as validated by Python's `datetime` constructor. -/
def daysInMonth (y m : Nat) : Nat :=
  if m = 2 then
    (if y % 4 = 0 && (y % 100 ≠ 0 || y % 400 = 0) then 29 else 28)
  else if m = 4 || m = 6 || m = 9 || m = 11 then 30 else 31

/-- `datetime.strptime(s, "%Y-%m-%d")`: regex match then `datetime` constructor
validation (`MINYEAR <= year`, day within month). -/
def strptimeDate (l : List Char) : Option (Nat × Nat × Nat) :=
  match regexDate l with
  | some (y, m, d) => if 1 ≤ y && 1 ≤ d && d ≤ daysInMonth y m then some (y, m, d) else none
  | none => none

/-- `datetime.strptime(s, "%Y-%m-%dT%H:%M:%S")` with `datetime` constructor
validation (the `%S` regex admits 60 and 61 but the constructor rejects them). -/
def strptimeDateTime (l : List Char) : Option (Nat × Nat × Nat × Nat × Nat × Nat) :=
  match regexDateTime l with
  | some (y, m, d, h, mi, s) =>
    if 1 ≤ y && 1 ≤ d && d ≤ daysInMonth y m && s ≤ 59 then some (y, m, d, h, mi, s) else none
  | none => none

/-- One entry of `ini_format_config`: the source stores
`[r1, c1, r2, c2, format_str]`. -/
structure FormatRule where
  r1 : Int
  c1 : Int
  r2 : Int
  c2 : Int
  fmt : List Char
deriving DecidableEq, Repr

/-- One sub-range of a FORMAT range spec: `strip()`, split on `[.:]`, and accept
exactly four integer tokens (source `_parse_excel_cell_range` loop body). -/
def parse4 (p : List Char) : Option (Int × Int × Int × Int) :=
  match charSplit (fun c => c == '.' || c == ':') p with
  | [a, b, c, d] =>
    match pyInt a, pyInt b, pyInt c, pyInt d with
    | some r1, some c1, some r2, some c2 => some (r1, c1, r2, c2)
    | _, _, _, _ => none
  | _ => none

/-- Sub-range handling inside `_parse_excel_cell_range`: strip then `parse4`. -/
def parseRangePart (p : List Char) : Option (Int × Int × Int × Int) :=
  parse4 (stripWS p)

/-- The `for range_part in ranges` loop of `_parse_excel_cell_range`: a
malformed sub-range is skipped, a well-formed one appends its rectangle. -/
def rangeLoop (fmt : List Char) : List (List Char) → List FormatRule
  | [] => []
  | p :: rest =>
    match parseRangePart p with
    | some (r1, c1, r2, c2) => ⟨r1, c1, r2, c2, fmt⟩ :: rangeLoop fmt rest
    | none => rangeLoop fmt rest

/-- Source `_parse_excel_cell_range`: split the spec on `/` and parse each
sub-range independently. -/
def parseExcelCellRange (rangeStr fmt : List Char) : List FormatRule :=
  rangeLoop fmt (charSplit (· == '/') rangeStr)

/-- Source `_parse_format_configuration`: split on `=` and `^`, require at
least 4 tokens, strip brackets, replace every `E` with `str(65535)`
(`MAX_EXCEL_ROWS`), and parse the ranges.  Returns the sheet name and its new
rules, `none` when the directive is ignored. -/
def parseFormatLine (line : List Char) : Option (List Char × List FormatRule) :=
  let parts := charSplit (fun c => c == '=' || c == '^') line
  if 4 ≤ parts.length then
    let sheet := parts.getD 1 []
    let rangeStr := replaceChar 'E' (natToChars 65535) (stripChars ['[', ']'] (parts.getD 2 []))
    let fmt := parts.getD 3 []
    some (sheet, parseExcelCellRange rangeStr fmt)
  else none

/-- One entry of `ini_chart_config`: the source stores the tuple
`(range_str, chart_title, position_row, position_col, chart_type,
x_axis_format, x_axis_title)`. -/
structure ChartRule where
  rangeStr : List Char
  title : List Char
  posRow : Int
  posCol : Int
  chartType : List Char
  xFormat : List Char
  xTitle : List Char
deriving DecidableEq, Repr

/-- Body of `_parse_chart_configuration` after the comma split: requires at
least 8 tokens; `none` models the caught `IndexError`/`ValueError` (directive
skipped). -/
def parseChartParts (parts : List (List Char)) : Option (List Char × ChartRule) :=
  if 8 ≤ parts.length then
    let sheet := parts.getD 0 []
    let rangeStr := stripChars ['[', ']'] (parts.getD 1 [])
    let title := if 4 < parts.length then parts.getD 4 [] else []
    match (if 5 < parts.length then pyInt (parts.getD 5 []) else some 2),
          (if 6 < parts.length then pyInt (parts.getD 6 []) else some 2) with
    | some posRow, some posCol =>
      let chartType := if 7 < parts.length then parts.getD 7 [] else "LINE".toList
      let xFormat := if 9 < parts.length then parts.getD 9 [] else []
      let xTitle := if 10 < parts.length then parts.getD 10 [] else []
      some (sheet, ⟨rangeStr, title, posRow, posCol, chartType, xFormat, xTitle⟩)
    | _, _ => none
  else none

/-- Source `_parse_chart_configuration`: `line.split('=', 1)[1].split(',')`
then the token processing; a missing `=` raises `IndexError`, which is caught
(directive skipped). -/
def parseChartLine (line : List Char) : Option (List Char × ChartRule) :=
  match splitFirst '=' line with
  | none => none
  | some (_, rest) => parseChartParts (charSplit (· == ',') rest)

/-- Containment test of `_check_cell_has_custom_format`: the cell's 1-based
coordinates lie inside the rule's inclusive rectangle. -/
def coversCell (fc : FormatRule) (row col : Nat) : Bool :=
  decide (fc.r1 ≤ (row : Int) + 1 ∧ (row : Int) + 1 ≤ fc.r2 ∧
          fc.c1 ≤ (col : Int) + 1 ∧ (col : Int) + 1 ≤ fc.c2)

/-- Source `_check_cell_has_custom_format`: first rule (in declaration order)
whose rectangle contains the 0-based cell wins; `(false, '')` otherwise. -/
def checkCellHasCustomFormat : List FormatRule → Nat → Nat → Bool × List Char
  | [], _, _ => (false, [])
  | fc :: rest, row, col =>
    if coversCell fc row col then (true, fc.fmt)
    else checkCellHasCustomFormat rest row col

/-- Observable effect of writing one cell: which sink call `_write_cell_value`
ends up making.  A numeric write carries the comma-stripped text whose float
value is written, and `some fmt`/`none` for a cached custom format versus the
default `number_format`. -/
inductive CellOut where
  | number (clean : List Char) (fmt : Option (List Char))
  | date (d : Nat × Nat × Nat)
  | datetime (d : Nat × Nat × Nat × Nat × Nat × Nat)
  | text (s : List Char)
deriving DecidableEq, Repr

/-- The `has_time` test of `_write_date_value`: longer than 10 characters and
not ending in the literal midnight suffix. -/
def dateHasTime (v : List Char) : Bool :=
  decide (10 < v.length) && !(List.isSuffixOf " 00:00:00".toList v)

/-- Source `_write_date_value`: replace spaces by `T`, choose the date-time or
date-only parse by `dateHasTime`, and degrade to a plain string on a strict
parse failure. -/
def writeDateValue (v : List Char) : CellOut :=
  let excel := replaceChar ' ' ['T'] v
  if dateHasTime v then
    match strptimeDateTime (excel.take 19) with
    | some d => CellOut.datetime d
    | none => CellOut.text v
  else
    match strptimeDate (excel.take 10) with
    | some d => CellOut.date d
    | none => CellOut.text v

/-- Membership in `excel_format_cache` (keyed by format string). -/
def cacheHas (cache : List (List Char)) (k : List Char) : Bool := cache.contains k

/-- Source `_write_cell_value`: empty text, then the custom-format numeric
branch, then the column-0 date branch, then the general numeric branch, then
plain text.  (The source's `len(format_config) >= 5` guard is always true, and
its inner `try: float(...)` cannot fail once `_is_numeric_string` passed.) -/
def writeCellValue (cache : List (List Char)) (rules : List FormatRule)
    (row col : Nat) (v : List Char) : CellOut :=
  if v = [] then CellOut.text []
  else
    let fc := checkCellHasCustomFormat rules row col
    if fc.1 && cacheHas cache fc.2 && isNumericString v then
      CellOut.number (removeCommas v) (some fc.2)
    else if col == 0 && isDateString v then
      writeDateValue v
    else if decide (0 < col) && isNumericString v then
      (if fc.1 && cacheHas cache fc.2 then CellOut.number (removeCommas v) (some fc.2)
       else CellOut.number (removeCommas v) none)
    else CellOut.text v

/-- One chart data series as configured by `_add_data_series`: a `name`
reference `(sheet, 0, col)` or none (the source's empty string), a `values`
reference `(sheet, r1, col, r2, col)` and an optional shared `categories`
reference. -/
structure Series where
  name : Option (List Char × Int × Int)
  values : List Char × Int × Int × Int × Int
  categories : Option (List Char × Int × Int × Int × Int)
deriving DecidableEq, Repr

/-- Python `range(a, b)` over integers. -/
def intRange (a b : Int) : List Int :=
  (List.range (b - a).toNat).map (fun i => a + Int.ofNat i)

/-- Source `_add_data_series`: one series per column in `range(c1, c2+1)`; a
rectangle starting at 0-based row 0 names the series from row 0 of its column
and shifts the value range to start at row 1. -/
def addDataSeries (sheet : List Char) (r1 c1 r2 c2 : Int)
    (cats : Option (Int × Int × Int × Int)) : List Series :=
  (intRange c1 (c2 + 1)).map fun col =>
    { name := if r1 = 0 then some (sheet, 0, col) else none
      values := (sheet, if r1 = 0 then 1 else r1, col, r2, col)
      categories := cats.map (fun q => (sheet, q.1, q.2.1, q.2.2.1, q.2.2.2)) }

/-- One sub-range of a CHART range spec: substitute `str(num_rows)` for every
`E`, strip, drop trailing `]`, and parse four integer tokens
(`_add_series_to_chart` loop body). -/
def parseChartPart (numRows : Nat) (p : List Char) : Option (Int × Int × Int × Int) :=
  parse4 (rstripChars [']'] (stripWS (replaceChar 'E' (natToChars numRows) p)))

/-- The `for idx, range_part in enumerate(ranges)` loop of
`_add_series_to_chart`: sub-range 0 sets the categories rectangle (0-based);
each later well-formed sub-range contributes data series; malformed sub-ranges
are skipped with the index still advancing. -/
def chartLoop (sheet : List Char) (numRows : Nat) :
    List (List Char) → Nat → Option (Int × Int × Int × Int) → List Series
  | [], _, _ => []
  | p :: rest, idx, cats =>
    match parseChartPart numRows p with
    | none => chartLoop sheet numRows rest (idx + 1) cats
    | some (r1, c1, r2, c2) =>
      if idx = 0 then
        chartLoop sheet numRows rest (idx + 1) (some (r1 - 1, c1 - 1, r2 - 1, c2 - 1))
      else
        addDataSeries sheet (r1 - 1) (c1 - 1) (r2 - 1) (c2 - 1) cats ++
          chartLoop sheet numRows rest (idx + 1) cats

/-- Source `_add_series_to_chart`: split the range spec on `/` and run the
series loop. -/
def addSeriesToChart (sheet : List Char) (rangeStr : List Char) (numRows : Nat) :
    List Series :=
  chartLoop sheet numRows (charSplit (· == '/') rangeStr) 0 none

/-- One constructed chart (`_create_and_insert_chart`): its series, title,
type, and 0-based insertion anchor. -/
structure Chart where
  series : List Series
  title : List Char
  chartType : List Char
  anchorRow : Int
  anchorCol : Int
deriving DecidableEq, Repr

/-- Source `_create_and_insert_chart` for one chart configuration. -/
def createAndInsertChart (sheet : List Char) (cfg : ChartRule) (numRows : Nat) : Chart :=
  { series := addSeriesToChart sheet cfg.rangeStr numRows
    title := cfg.title
    chartType := cfg.chartType
    anchorRow := cfg.posRow - 1
    anchorCol := cfg.posCol - 1 }

/-- Source `_add_charts_to_worksheet`: one chart per configuration of the
current sheet, in declaration order. -/
def addChartsToWorksheet (sheet : List Char) (cfgs : List ChartRule) (numRows : Nat) :
    List Chart :=
  cfgs.map (fun cfg => createAndInsertChart sheet cfg numRows)

/-! ### Basic facts about digit characters and stripping -/

theorem digit_ne_of {c x : Char} (h : c.isDigit = true) (hx : x.isDigit = false) : c ≠ x := by
  intro e
  rw [e, hx] at h
  cases h

theorem digit_not_pyWS {c : Char} (h : c.isDigit = true) : isPyWS c = false := by
  have h1 := digit_ne_of h (x := ' ') (by decide)
  have h2 := digit_ne_of h (x := '\t') (by decide)
  have h3 := digit_ne_of h (x := '\n') (by decide)
  have h4 := digit_ne_of h (x := '\r') (by decide)
  have h5 := digit_ne_of h (x := '\x0b') (by decide)
  have h6 := digit_ne_of h (x := '\x0c') (by decide)
  simp [isPyWS, h1, h2, h3, h4, h5, h6]

theorem dropWhile_eq_self_of {p : Char → Bool} {l : List Char}
    (h : ∀ c ∈ l, p c = false) : l.dropWhile p = l := by
  cases l with
  | nil => rfl
  | cons c r => simp [List.dropWhile_cons, h c (by simp)]

theorem stripWS_eq_self {l : List Char} (h : ∀ c ∈ l, isPyWS c = false) :
    stripWS l = l := by
  unfold stripWS
  rw [dropWhile_eq_self_of h, dropWhile_eq_self_of (by simpa using h), List.reverse_reverse]

theorem rstripChars_eq_self {cs l : List Char} (h : ∀ c ∈ l, cs.contains c = false) :
    rstripChars cs l = l := by
  unfold rstripChars
  rw [dropWhile_eq_self_of (by simpa using h), List.reverse_reverse]

/-- Right-stripping distributes over a cons whose head is not stripped. -/
theorem rdrop_cons_nws {c : Char} {l : List Char} (h : isPyWS c = false) :
    ((c :: l).reverse.dropWhile isPyWS).reverse = c :: (l.reverse.dropWhile isPyWS).reverse := by
  rw [List.reverse_cons, List.dropWhile_append]
  rcases he : (l.reverse.dropWhile isPyWS).isEmpty with _ | _
  · simp [he]
  · rw [List.isEmpty_iff] at he
    simp [he, h]

theorem stripWS_cons_nws {c : Char} {l : List Char} (h : isPyWS c = false) :
    stripWS (c :: l) = c :: ((l.reverse.dropWhile isPyWS).reverse) := by
  unfold stripWS
  rw [List.dropWhile_cons_of_neg (by simp [h]), rdrop_cons_nws h]

/-! ### The digit-run machine and Python `int` on decimal output -/

theorem dvc_digit {acc : Nat} {c : Char} {r : List Char} (h : c.isDigit = true) :
    digitsValCont acc (c :: r) = digitsValCont (acc * 10 + digitVal c) r := by
  cases r with
  | nil => simp [digitsValCont, h]
  | cons d r2 => simp [digitsValCont, h]

theorem dvc_stop {acc : Nat} {c : Char} {r : List Char} (hd : c.isDigit = false)
    (hu : c ≠ '_') : digitsValCont acc (c :: r) = (acc, c :: r) := by
  cases r with
  | nil => simp [digitsValCont, hd, hu]
  | cons d r2 => simp [digitsValCont, hd, hu]

theorem dvc_all_digits {l : List Char} (h : ∀ c ∈ l, c.isDigit = true) (acc : Nat) :
    digitsValCont acc l = (l.foldl (fun a c => a * 10 + digitVal c) acc, []) := by
  induction l generalizing acc with
  | nil => rfl
  | cons c r ih =>
    rw [dvc_digit (h c (by simp)), ih (fun x hx => h x (by simp [hx])), List.foldl_cons]

theorem ofNat_digit_isDigit {k : Nat} (hk : k < 10) :
    (Char.ofNat (48 + k)).isDigit = true := by
  interval_cases k <;> decide

theorem ofNat_digitVal {k : Nat} (hk : k < 10) : digitVal (Char.ofNat (48 + k)) = k := by
  interval_cases k <;> decide

theorem ntc_core_digits : ∀ (fuel n : Nat) (ds : List Char),
    (∀ c ∈ ds, c.isDigit = true) → ∀ c ∈ natToCharsCore fuel n ds, c.isDigit = true := by
  intro fuel
  induction fuel with
  | zero => intro n ds h; exact h
  | succ f ih =>
    intro n ds h c hc
    rw [natToCharsCore] at hc
    by_cases h0 : n / 10 = 0
    · rw [if_pos h0] at hc
      rw [List.mem_cons] at hc
      rcases hc with hc | hc
      · rw [hc]; exact ofNat_digit_isDigit (Nat.mod_lt _ (by omega))
      · exact h c hc
    · rw [if_neg h0] at hc
      refine ih (n / 10) _ ?_ c hc
      intro x hx
      rw [List.mem_cons] at hx
      rcases hx with hx | hx
      · rw [hx]; exact ofNat_digit_isDigit (Nat.mod_lt _ (by omega))
      · exact h x hx

theorem ntc_digits {n : Nat} : ∀ c ∈ natToChars n, c.isDigit = true :=
  ntc_core_digits (n + 1) n [] (by simp)

theorem ntc_core_append : ∀ (n fuel fuel' : Nat) (ds : List Char), n < fuel → n < fuel' →
    natToCharsCore fuel n ds = natToCharsCore fuel' n [] ++ ds := by
  intro n
  induction n using Nat.strong_induction_on with
  | _ n ih =>
    intro fuel fuel' ds hf hf'
    match fuel, fuel' with
    | f + 1, f' + 1 =>
      rw [natToCharsCore, natToCharsCore]
      by_cases h0 : n / 10 = 0
      · rw [if_pos h0, if_pos h0]
        rfl
      · rw [if_neg h0, if_neg h0]
        have hlt : n / 10 < n := Nat.div_lt_self (by omega) (by omega)
        rw [ih (n / 10) hlt f (n / 10 + 1) _ (by omega) (by omega),
            ih (n / 10) hlt f' (n / 10 + 1) _ (by omega) (by omega),
            List.append_assoc]
        rfl

theorem ntc_val : ∀ n : Nat,
    (natToChars n).foldl (fun a c => a * 10 + digitVal c) 0 = n := by
  intro n
  induction n using Nat.strong_induction_on with
  | _ n ih =>
    unfold natToChars
    rw [natToCharsCore]
    by_cases h0 : n / 10 = 0
    · rw [if_pos h0]
      simp [ofNat_digitVal (Nat.mod_lt n (by omega) : n % 10 < 10)]
      omega
    · rw [if_neg h0]
      have hlt : n / 10 < n := Nat.div_lt_self (by omega) (by omega)
      rw [ntc_core_append (n / 10) n (n / 10 + 1) _ (by omega) (by omega)]
      rw [List.foldl_append]
      rw [show (natToCharsCore (n / 10 + 1) (n / 10) []) = natToChars (n / 10) from rfl]
      rw [ih (n / 10) hlt]
      simp [ofNat_digitVal (Nat.mod_lt n (by omega) : n % 10 < 10)]
      omega

theorem ntc_ne_nil {n : Nat} : natToChars n ≠ [] := by
  intro h
  have := ntc_val n
  rw [h] at this
  simp at this
  have h2 := ntc_val n
  rw [h] at h2
  simp at h2
  subst h2
  unfold natToChars natToCharsCore at h
  simp at h

theorem pyIntAfterStrip_cons (c : Char) (r : List Char) :
    pyIntAfterStrip (c :: r) =
      if c = '+' then (pyIntMag r).map Int.ofNat
      else if c = '-' then (pyIntMag r).map (fun v => -(Int.ofNat v))
      else (pyIntMag (c :: r)).map Int.ofNat := rfl

theorem pyIntMag_cons (c : Char) (r : List Char) :
    pyIntMag (c :: r) =
      (if c.isDigit then
        (fun pr : Nat × List Char => if pr.2 = [] then some pr.1 else none)
          (digitsValCont (digitVal c) r)
       else none) := by
  rw [pyIntMag]

theorem pyInt_natToChars (n : Nat) : pyInt (natToChars n) = some (n : Int) := by
  obtain ⟨c, t, hct⟩ : ∃ c t, natToChars n = c :: t := by
    cases h : natToChars n with
    | nil => exact absurd h ntc_ne_nil
    | cons c t => exact ⟨c, t, rfl⟩
  have hdig : ∀ x ∈ natToChars n, x.isDigit = true := ntc_digits
  have hc : c.isDigit = true := hdig c (by rw [hct]; simp)
  have ht : ∀ x ∈ t, x.isDigit = true := fun x hx => hdig x (by rw [hct]; simp [hx])
  unfold pyInt
  rw [stripWS_eq_self (fun x hx => digit_not_pyWS (hdig x hx)), hct]
  rw [pyIntAfterStrip_cons,
      if_neg (digit_ne_of hc (x := '+') (by decide)),
      if_neg (digit_ne_of hc (x := '-') (by decide))]
  rw [pyIntMag_cons, if_pos hc, dvc_all_digits ht]
  simp only [if_pos rfl]
  have hv : (c :: t).foldl (fun a x => a * 10 + digitVal x) 0 = n := by
    rw [← hct]; exact ntc_val n
  rw [List.foldl_cons] at hv
  simp only [Nat.zero_mul, Nat.zero_add] at hv
  simp [hv]

/-! ### A date-shaped string is never numeric -/

theorem isDate_shape {v : List Char} (h : isDateString v = true) :
    ∃ a b c d t, v = a :: b :: c :: d :: '-' :: t ∧
      a.isDigit = true ∧ b.isDigit = true ∧ c.isDigit = true ∧ d.isDigit = true := by
  unfold isDateString at h
  split at h
  · next a b c d e2 f2 g2 h2 rest =>
    simp only [Bool.and_eq_true] at h
    exact ⟨a, b, c, d, _, rfl, h.1.1.1.1.1.1.1, h.1.1.1.1.1.1.2, h.1.1.1.1.1.2, h.1.1.1.1.2⟩
  · cases h

theorem isInfNan_dash5_false {a b c d : Char} {Y : List Char} :
    isInfNanCI (a :: b :: c :: d :: '-' :: Y) = false := by
  unfold isInfNanCI
  simp only [List.map_cons]
  rw [Bool.or_eq_false_iff, Bool.or_eq_false_iff]
  refine ⟨⟨?_, ?_⟩, ?_⟩
  · rw [beq_eq_false_iff_ne]
    intro h
    simp at h
  · rw [beq_eq_false_iff_ne]
    intro h
    have h4 : (a.toLower :: b.toLower :: c.toLower :: d.toLower :: Char.toLower '-' ::
        Y.map Char.toLower).getD 4 ' ' = ("infinity".toList).getD 4 ' ' := by rw [h]
    simp only [List.getD_cons_succ, List.getD_cons_zero] at h4
    rw [show ("infinity".toList).getD 4 ' ' = 'n' from rfl] at h4
    exact absurd h4 (by decide)
  · rw [beq_eq_false_iff_ne]
    intro h
    simp at h

theorem float_reject_date_head {a b c d : Char} {rest : List Char}
    (ha : a.isDigit = true) (hb : b.isDigit = true) (hc : c.isDigit = true)
    (hd : d.isDigit = true) :
    pyFloatAccepts (a :: b :: c :: d :: '-' :: rest) = false := by
  have hstrip : stripWS (a :: b :: c :: d :: '-' :: rest)
      = a :: b :: c :: d :: '-' :: ((rest.reverse.dropWhile isPyWS).reverse) := by
    rw [stripWS_cons_nws (digit_not_pyWS ha)]
    rw [rdrop_cons_nws (digit_not_pyWS hb), rdrop_cons_nws (digit_not_pyWS hc),
        rdrop_cons_nws (digit_not_pyWS hd), rdrop_cons_nws (show isPyWS '-' = false by decide)]
  have hrw : pyFloatAccepts (a :: b :: c :: d :: '-' :: rest)
      = (isInfNanCI (dropSign (stripWS (a :: b :: c :: d :: '-' :: rest))) ||
         floatNumber (dropSign (stripWS (a :: b :: c :: d :: '-' :: rest)))) := rfl
  rw [hrw, hstrip]
  have hds : dropSign (a :: b :: c :: d :: '-' ::
      ((rest.reverse.dropWhile isPyWS).reverse)) = a :: b :: c :: d :: '-' ::
      ((rest.reverse.dropWhile isPyWS).reverse) := by
    simp [dropSign, digit_ne_of ha (x := '+') (by decide),
          digit_ne_of ha (x := '-') (by decide)]
  rw [hds, isInfNan_dash5_false]
  have hfn : floatNumber (a :: b :: c :: d :: '-' ::
      ((rest.reverse.dropWhile isPyWS).reverse)) = false := by
    rw [show floatNumber (a :: b :: c :: d :: '-' ::
        ((rest.reverse.dropWhile isPyWS).reverse)) =
        (if a = '.' then
          match runDigits (b :: c :: d :: '-' :: ((rest.reverse.dropWhile isPyWS).reverse)) with
          | some r2 => floatExpo r2
          | none => false
         else
          match runDigits (a :: b :: c :: d :: '-' ::
              ((rest.reverse.dropWhile isPyWS).reverse)) with
          | some r2 => afterIntPart r2
          | none => false) from rfl]
    rw [if_neg (digit_ne_of ha (x := '.') (by decide))]
    have hrun : runDigits (a :: b :: c :: d :: '-' ::
        ((rest.reverse.dropWhile isPyWS).reverse)) =
        some ('-' :: ((rest.reverse.dropWhile isPyWS).reverse)) := by
      rw [show runDigits (a :: b :: c :: d :: '-' ::
          ((rest.reverse.dropWhile isPyWS).reverse)) =
          if a.isDigit then some (digitsValCont (digitVal a)
            (b :: c :: d :: '-' :: ((rest.reverse.dropWhile isPyWS).reverse))).2
          else none from rfl]
      rw [if_pos ha, dvc_digit hb, dvc_digit hc, dvc_digit hd,
          dvc_stop (by decide) (by decide)]
    rw [hrun]
    rfl
  rw [hfn]
  rfl

theorem isDate_not_numeric {v : List Char} (h : isDateString v = true) :
    isNumericString v = false := by
  obtain ⟨a, b, c, d, t, rfl, ha, hb, hc, hd⟩ := isDate_shape h
  have hrc : removeCommas (a :: b :: c :: d :: '-' :: t)
      = a :: b :: c :: d :: '-' :: removeCommas t := by
    unfold removeCommas
    rw [List.filter_cons, if_pos (bne_iff_ne.mpr (digit_ne_of ha (by decide))),
        List.filter_cons, if_pos (bne_iff_ne.mpr (digit_ne_of hb (by decide))),
        List.filter_cons, if_pos (bne_iff_ne.mpr (digit_ne_of hc (by decide))),
        List.filter_cons, if_pos (bne_iff_ne.mpr (digit_ne_of hd (by decide))),
        List.filter_cons, if_pos (by decide)]
  unfold isNumericString
  rw [if_neg (by simp), hrc, float_reject_date_head ha hb hc hd]

/-! ### Splitting lemmas -/

theorem charSplit_ne_nil {p : Char → Bool} {l : List Char} : charSplit p l ≠ [] := by
  cases l with
  | nil => simp [charSplit]
  | cons c r =>
    rw [charSplit]
    split
    · simp
    · split <;> simp

theorem charSplit_cons_sep {p : Char → Bool} {c : Char} {l : List Char} (h : p c = true) :
    charSplit p (c :: l) = [] :: charSplit p l := by
  rw [charSplit, if_pos h]

theorem charSplit_cons_nsep {p : Char → Bool} {c : Char} {l g : List Char}
    {gs : List (List Char)} (h : p c = false) (hl : charSplit p l = g :: gs) :
    charSplit p (c :: l) = (c :: g) :: gs := by
  rw [charSplit, if_neg (by simp [h]), hl]

theorem charSplit_sepFree_append {p : Char → Bool} {a : List Char}
    (ha : ∀ c ∈ a, p c = false) {l g : List Char} {gs : List (List Char)}
    (hl : charSplit p l = g :: gs) : charSplit p (a ++ l) = (a ++ g) :: gs := by
  induction a with
  | nil => simpa using hl
  | cons c a ih =>
    rw [List.cons_append,
        charSplit_cons_nsep (ha c (by simp)) (ih (fun x hx => ha x (by simp [hx]))),
        List.cons_append]

/-! ### Range-loop lemmas -/

theorem rangeLoop_append (fmt : List Char) (xs ys : List (List Char)) :
    rangeLoop fmt (xs ++ ys) = rangeLoop fmt xs ++ rangeLoop fmt ys := by
  induction xs with
  | nil => rfl
  | cons p rest ih =>
    rw [List.cons_append]
    cases hp : parseRangePart p with
    | none => simp [rangeLoop, hp, ih]
    | some q =>
      obtain ⟨r1, c1, r2, c2⟩ := q
      simp [rangeLoop, hp, ih]

theorem rangeLoop_cons_bad (fmt : List Char) {b : List Char}
    (hb : parseRangePart b = none) (rest : List (List Char)) :
    rangeLoop fmt (b :: rest) = rangeLoop fmt rest := by
  simp [rangeLoop, hb]

theorem rangeLoop_cons_good (fmt : List Char) {p : List Char} {r1 c1 r2 c2 : Int}
    (hp : parseRangePart p = some (r1, c1, r2, c2)) (rest : List (List Char)) :
    rangeLoop fmt (p :: rest) = ⟨r1, c1, r2, c2, fmt⟩ :: rangeLoop fmt rest := by
  simp [rangeLoop, hp]

/-! ### Chart-loop lemmas -/

theorem chartLoop_bind {sheet : List Char} {n : Nat} (l : List (List Char)) :
    ∀ idx, idx ≠ 0 → ∀ cats,
    chartLoop sheet n l idx cats = l.flatMap (fun p =>
      match parseChartPart n p with
      | some (r1, c1, r2, c2) => addDataSeries sheet (r1 - 1) (c1 - 1) (r2 - 1) (c2 - 1) cats
      | none => []) := by
  induction l with
  | nil => intro idx _ cats; rfl
  | cons p rest ih =>
    intro idx hidx cats
    cases hp : parseChartPart n p with
    | none => simp [chartLoop, hp, ih (idx + 1) (by omega) cats]
    | some q =>
      obtain ⟨r1, c1, r2, c2⟩ := q
      simp [chartLoop, hp, hidx, ih (idx + 1) (by omega) cats]

theorem chartLoop_none_cats {sheet : List Char} {n : Nat} (l : List (List Char))
    (idx : Nat) (hidx : idx ≠ 0) :
    ∀ ser ∈ chartLoop sheet n l idx none, ser.categories = none := by
  rw [chartLoop_bind l idx hidx none]
  intro ser hser
  rw [List.mem_flatMap] at hser
  obtain ⟨p, hp, hmem⟩ := hser
  revert hmem
  cases hq : parseChartPart n p with
  | none => simp
  | some q =>
    obtain ⟨r1, c1, r2, c2⟩ := q
    intro hmem
    simp only [addDataSeries, List.mem_map] at hmem
    obtain ⟨col, _, heq⟩ := hmem
    rw [← heq]
    rfl

/-! ### Write-path lemmas -/

theorem writeCellValue_eq (cache : List (List Char)) (rules : List FormatRule)
    (row col : Nat) (v : List Char) :
    writeCellValue cache rules row col v =
      (if v = [] then CellOut.text []
       else if (checkCellHasCustomFormat rules row col).1 &&
           cacheHas cache (checkCellHasCustomFormat rules row col).2 && isNumericString v then
         CellOut.number (removeCommas v) (some (checkCellHasCustomFormat rules row col).2)
       else if col == 0 && isDateString v then writeDateValue v
       else if decide (0 < col) && isNumericString v then
         (if (checkCellHasCustomFormat rules row col).1 &&
             cacheHas cache (checkCellHasCustomFormat rules row col).2 then
            CellOut.number (removeCommas v) (some (checkCellHasCustomFormat rules row col).2)
          else CellOut.number (removeCommas v) none)
       else CellOut.text v) := rfl

theorem writeCell_numeric_nonzero (cache : List (List Char)) (rules : List FormatRule)
    (row col : Nat) (v : List Char) (hcol : col ≠ 0) (hv : isNumericString v = true) :
    writeCellValue cache rules row col v =
      (if (checkCellHasCustomFormat rules row col).1 &&
          cacheHas cache (checkCellHasCustomFormat rules row col).2
       then CellOut.number (removeCommas v) (some (checkCellHasCustomFormat rules row col).2)
       else CellOut.number (removeCommas v) none) := by
  have hvne : v ≠ [] := by
    intro e
    rw [e] at hv
    simp [isNumericString] at hv
  rw [writeCellValue_eq, if_neg hvne]
  by_cases hfc : ((checkCellHasCustomFormat rules row col).1 &&
      cacheHas cache (checkCellHasCustomFormat rules row col).2) = true
  · rw [if_pos (by rw [Bool.and_eq_true]; exact ⟨hfc, hv⟩), if_pos hfc]
  · rw [if_neg (by simp [Bool.and_eq_true]; intro h1 h2; exact absurd (by rw [h1, h2]; rfl) hfc),
        if_neg (by simp [hcol]),
        if_pos (by rw [Bool.and_eq_true]; exact ⟨by simpa using Nat.pos_of_ne_zero hcol, hv⟩),
        if_neg hfc]

theorem writeCell_col0_date (cache : List (List Char)) (rules : List FormatRule)
    (row : Nat) (v : List Char) (hd : isDateString v = true) :
    writeCellValue cache rules row 0 v = writeDateValue v := by
  have hvne : v ≠ [] := by
    obtain ⟨a, b, c, d, t, rfl, _⟩ := isDate_shape hd
    simp
  have hnum : isNumericString v = false := isDate_not_numeric hd
  rw [writeCellValue_eq, if_neg hvne, if_neg (by simp [hnum]), if_pos (by simp [hd])]

theorem writeCell_col0_custom_numeric (cache : List (List Char)) (rules : List FormatRule)
    (row : Nat) (v : List Char) (hv : isNumericString v = true)
    (h1 : (checkCellHasCustomFormat rules row 0).1 = true)
    (h2 : cacheHas cache (checkCellHasCustomFormat rules row 0).2 = true) :
    writeCellValue cache rules row 0 v =
      CellOut.number (removeCommas v) (some (checkCellHasCustomFormat rules row 0).2) := by
  have hvne : v ≠ [] := by
    intro e
    rw [e] at hv
    simp [isNumericString] at hv
  rw [writeCellValue_eq, if_neg hvne, if_pos (by rw [h1, h2, hv]; rfl)]

/-! ### Claim theorems -/

/-- C1 (counterexample): for the chart range spec `"1.1:3.1/1.2:3.2"` over a
3-row table, the produced chart does NOT match the claimed shape (one unnamed
series with values over rows 1–3 of column 2): the single series has a
synthesized header name, because the 1-based start row 1 becomes 0-based row 0. -/
theorem c1_counterexample :
    addSeriesToChart "s".toList "1.1:3.1/1.2:3.2".toList 3 ≠
      [{ name := none, values := ("s".toList, 0, 1, 2, 1),
         categories := some ("s".toList, 0, 0, 2, 0) }] ∧
    (addSeriesToChart "s".toList "1.1:3.1/1.2:3.2".toList 3).all
      (fun ser => ser.name.isSome) = true := by
  decide

/-- C1 (amended): a configuration with one CHART rule of range
`"1.1:3.1/1.2:3.2"` over a 3-row table produces exactly one chart with exactly
one series; its categories reference covers column 1 rows 1–3 (0-based
`(0,0)–(2,0)`), its name IS synthesized from row 1 of column 2 (0-based row 0),
and its values reference covers column 2 rows 2–3 (0-based rows 1–2). -/
theorem c1_amended :
    addChartsToWorksheet "s".toList
      [⟨"1.1:3.1/1.2:3.2".toList, "T".toList, 2, 2, "LINE".toList, [], []⟩] 3 =
      [{ series := [{ name := some ("s".toList, 0, 1),
                      values := ("s".toList, 1, 1, 2, 1),
                      categories := some ("s".toList, 0, 0, 2, 0) }],
         title := "T".toList, chartType := "LINE".toList,
         anchorRow := 1, anchorCol := 1 }] := by
  decide

/-- C2: `_add_data_series` creates one series per column spanned by the value
rectangle (`range(c1, c2+1)`); the series for column `col` has a name taken
from row 0 of that column and values starting at row 1 exactly when the
0-based start row is 0, and otherwise no name with the row span used exactly. -/
theorem c2_series_per_column (sheet : List Char) (r1 c1 r2 c2 : Int)
    (cats : Option (Int × Int × Int × Int)) (col : Int)
    (h1 : c1 ≤ col) (h2 : col ≤ c2) :
    (addDataSeries sheet r1 c1 r2 c2 cats).length = (c2 + 1 - c1).toNat ∧
    (addDataSeries sheet r1 c1 r2 c2 cats)[(col - c1).toNat]? =
      some { name := if r1 = 0 then some (sheet, 0, col) else none
             values := (sheet, if r1 = 0 then 1 else r1, col, r2, col)
             categories := cats.map (fun q => (sheet, q.1, q.2.1, q.2.2.1, q.2.2.2)) } := by
  constructor
  · simp only [addDataSeries, List.length_map, intRange, List.length_range]
  · have hlt : (col - c1).toNat < ((c2 + 1) - c1).toNat := by omega
    have hget : (intRange c1 (c2 + 1))[(col - c1).toNat]? =
        some (c1 + Int.ofNat ((col - c1).toNat)) := by
      unfold intRange
      rw [List.getElem?_map, List.getElem?_range hlt]
      rfl
    have hcol : c1 + Int.ofNat ((col - c1).toNat) = col := by
      rw [Int.ofNat_eq_coe, Int.toNat_of_nonneg (by omega)]
      omega
    rw [hcol] at hget
    simp only [addDataSeries, List.getElem?_map, hget, Option.map_some']

/-- C2 witness: a two-column header-starting rectangle, inspected at column 2. -/
theorem c2_witness :
    (addDataSeries "s".toList 0 1 4 2 none).length = 2 ∧
    (addDataSeries "s".toList 0 1 4 2 none)[1]? =
      some { name := some ("s".toList, 0, 2), values := ("s".toList, 1, 2, 4, 2),
             categories := none } :=
  c2_series_per_column "s".toList 0 1 4 2 none 2 (by decide) (by decide)

/-- C4: when several FORMAT rules of a sheet cover the same cell, the
earliest-declared covering rule provides the format; rules declared after it
are never consulted. -/
theorem c4_first_rule_wins (xs : List FormatRule) (R : FormatRule) (ys : List FormatRule)
    (row col : Nat) (hxs : ∀ S ∈ xs, coversCell S row col = false)
    (hR : coversCell R row col = true) :
    checkCellHasCustomFormat (xs ++ R :: ys) row col = (true, R.fmt) := by
  induction xs with
  | nil => simp [checkCellHasCustomFormat, hR]
  | cons S xs ih =>
    rw [List.cons_append,
        show checkCellHasCustomFormat (S :: (xs ++ R :: ys)) row col =
          if coversCell S row col then (true, S.fmt)
          else checkCellHasCustomFormat (xs ++ R :: ys) row col from rfl,
        if_neg (by simp [hxs S (by simp)])]
    exact ih (fun T hT => hxs T (by simp [hT]))

/-- C4 witness: two overlapping rules both covering 1-based cell (3,3); the
first-declared rule's format is resolved. -/
theorem c4_witness :
    checkCellHasCustomFormat
      [⟨1, 1, 5, 5, "A".toList⟩, ⟨2, 2, 4, 4, "B".toList⟩] 2 2 = (true, "A".toList) :=
  c4_first_rule_wins [] ⟨1, 1, 5, 5, "A".toList⟩ [⟨2, 2, 4, 4, "B".toList⟩] 2 2
    (by simp) (by decide)

/-- C5: dispatch policy by column.  A non-empty column-0 cell whose text passes
the date test is handed to the date writer no matter which FORMAT rule covers
it (the custom-format numeric branch cannot fire because a date-shaped string
never passes the numeric test); a non-empty cell in a column other than 0
whose text passes the numeric test is written as a number. -/
theorem c5_dispatch_policy :
    (∀ (cache : List (List Char)) (rules : List FormatRule) (row : Nat) (v : List Char),
      isDateString v = true → writeCellValue cache rules row 0 v = writeDateValue v) ∧
    (∀ (cache : List (List Char)) (rules : List FormatRule) (row col : Nat) (v : List Char),
      col ≠ 0 → isNumericString v = true →
      writeCellValue cache rules row col v =
        (if (checkCellHasCustomFormat rules row col).1 &&
            cacheHas cache (checkCellHasCustomFormat rules row col).2
         then CellOut.number (removeCommas v) (some (checkCellHasCustomFormat rules row col).2)
         else CellOut.number (removeCommas v) none)) :=
  ⟨fun cache rules row v hd => writeCell_col0_date cache rules row v hd,
   fun cache rules row col v hc hv => writeCell_numeric_nonzero cache rules row col v hc hv⟩

/-- C5 witness: a column-0 date cell covered by a FORMAT rule whose format is
cached is still written through the date writer. -/
theorem c5_witness :
    writeCellValue ["###,##0".toList] [⟨1, 1, 9, 9, "###,##0".toList⟩] 0 0
      "2021-01-26".toList = writeDateValue "2021-01-26".toList :=
  c5_dispatch_policy.1 ["###,##0".toList] [⟨1, 1, 9, 9, "###,##0".toList⟩] 0
    "2021-01-26".toList (by decide)

/-- C6: a column-0 value that passed the coarse date test is classified
date-with-time exactly by `len > 10 and not endswith(' 00:00:00')`: a
`datetime` output only arises when that test holds and a date-only output only
when it fails; `"2021-01-26"` and `"2021-01-26 00:00:00"` are written
date-only, `"2021-01-26 19:30:00"` date-with-time, and `"21-01-26"` fails the
date test. -/
theorem c6_date_time_classification :
    (∀ (v : List Char) (d : Nat × Nat × Nat × Nat × Nat × Nat),
       writeDateValue v = CellOut.datetime d → dateHasTime v = true) ∧
    (∀ (v : List Char) (d : Nat × Nat × Nat),
       writeDateValue v = CellOut.date d → dateHasTime v = false) ∧
    writeDateValue "2021-01-26".toList = CellOut.date (2021, 1, 26) ∧
    writeDateValue "2021-01-26 00:00:00".toList = CellOut.date (2021, 1, 26) ∧
    writeDateValue "2021-01-26 19:30:00".toList = CellOut.datetime (2021, 1, 26, 19, 30, 0) ∧
    isDateString "21-01-26".toList = false := by
  refine ⟨?_, ?_, by decide, by decide, by decide, by decide⟩
  · intro v d h
    unfold writeDateValue at h
    by_cases ht : dateHasTime v = true
    · exact ht
    · rw [Bool.not_eq_true] at ht
      rw [if_neg (by simp [ht])] at h
      revert h
      cases strptimeDate ((replaceChar ' ' ['T'] v).take 10) <;> simp
  · intro v d h
    unfold writeDateValue at h
    by_cases ht : dateHasTime v = true
    · rw [if_pos ht] at h
      revert h
      cases strptimeDateTime ((replaceChar ' ' ['T'] v).take 19) <;> simp
    · exact Bool.not_eq_true _ ▸ ht

/-- C6 witness: the classification theorem applied to the concrete
date-with-time example. -/
theorem c6_witness : dateHasTime "2021-01-26 19:30:00".toList = true :=
  c6_date_time_classification.1 "2021-01-26 19:30:00".toList (2021, 1, 26, 19, 30, 0)
    (by decide)

/-- C7 (counterexample): a CHART directive in which `chartType` is absent
(7 comma tokens) is not accepted with the default `LINE`; the whole directive
is skipped because fewer than 8 tokens are present. -/
theorem c7_counterexample :
    parseChartLine "CHART1=s,[1.1:2.1],ACTIVE,q,title,3,4".toList = none := by
  decide

/-- C7 (amended): CHART parsing requires at least 8 comma tokens, so a
directive lacking `anchorRow`, `anchorCol`, or `chartType` is skipped entirely
and the written defaults 2/2/LINE are unreachable; in every accepted directive
those three fields come from tokens 6–8, while `xAxisFormat` and `xAxisTitle`
default to the empty string exactly when the directive has at most 9 (resp.
10) tokens. -/
theorem c7_amended :
    (∀ parts : List (List Char), parts.length < 8 → parseChartParts parts = none) ∧
    (∀ (parts : List (List Char)) (sheet : List Char) (rule : ChartRule),
       parseChartParts parts = some (sheet, rule) →
       8 ≤ parts.length ∧
       pyInt (parts.getD 5 []) = some rule.posRow ∧
       pyInt (parts.getD 6 []) = some rule.posCol ∧
       rule.chartType = parts.getD 7 [] ∧
       (parts.length ≤ 9 → rule.xFormat = []) ∧
       (parts.length ≤ 10 → rule.xTitle = [])) := by
  constructor
  · intro parts h
    unfold parseChartParts
    rw [if_neg (by omega)]
  · intro parts sheet rule h
    unfold parseChartParts at h
    by_cases h8 : 8 ≤ parts.length
    · rw [if_pos h8, if_pos (show 5 < parts.length by omega),
          if_pos (show 6 < parts.length by omega)] at h
      cases hrow : pyInt (parts.getD 5 []) with
      | none => rw [hrow] at h; cases h
      | some pr =>
        cases hcol : pyInt (parts.getD 6 []) with
        | none => rw [hrow, hcol] at h; cases h
        | some pc =>
          rw [hrow, hcol] at h
          simp only [Option.some.injEq, Prod.mk.injEq] at h
          obtain ⟨hsheet, hrule⟩ := h
          refine ⟨h8, ?_, ?_, ?_, ?_, ?_⟩
          · rw [← hrule]
          · rw [← hrule]
          · rw [← hrule]
            show (if 7 < parts.length then parts.getD 7 [] else "LINE".toList) = parts.getD 7 []
            rw [if_pos (by omega)]
          · intro hle
            rw [← hrule]
            show (if 9 < parts.length then parts.getD 9 [] else []) = []
            rw [if_neg (by omega)]
          · intro hle
            rw [← hrule]
            show (if 10 < parts.length then parts.getD 10 [] else []) = []
            rw [if_neg (by omega)]
    · rw [if_neg h8] at h
      cases h

/-- C7 witness: a 1-token directive is rejected; in an accepted 8-token
directive the anchor row is read from token 6. -/
theorem c7_witness :
    parseChartParts ["s".toList] = none ∧
    pyInt (["s".toList, "[1.1:2.1]".toList, "A".toList, "q".toList, "t".toList,
      "3".toList, "4".toList, "BAR".toList].getD 5 []) = some (3 : Int) :=
  ⟨c7_amended.1 ["s".toList] (by decide),
   (c7_amended.2 ["s".toList, "[1.1:2.1]".toList, "A".toList, "q".toList, "t".toList,
      "3".toList, "4".toList, "BAR".toList] "s".toList
      ⟨"1.1:2.1".toList, "t".toList, 3, 4, "BAR".toList, [], []⟩ (by decide)).2.1⟩

/-- C8: in the range-spec loop, a sub-range that does not yield exactly four
integer tokens is dropped by itself, and a well-formed sub-range contributes
exactly its rectangle, with all sibling sub-ranges (before and after)
unaffected. -/
theorem c8_subrange_isolation :
    (∀ (fmt : List Char) (xs : List (List Char)) (b : List Char) (ys : List (List Char)),
       parseRangePart b = none →
       rangeLoop fmt (xs ++ b :: ys) = rangeLoop fmt (xs ++ ys)) ∧
    (∀ (fmt : List Char) (xs : List (List Char)) (p : List Char) (r1 c1 r2 c2 : Int)
       (ys : List (List Char)), parseRangePart p = some (r1, c1, r2, c2) →
       rangeLoop fmt (xs ++ p :: ys) =
         rangeLoop fmt xs ++ ⟨r1, c1, r2, c2, fmt⟩ :: rangeLoop fmt ys) := by
  constructor
  · intro fmt xs b ys hb
    rw [rangeLoop_append, rangeLoop_cons_bad fmt hb, ← rangeLoop_append]
  · intro fmt xs p r1 c1 r2 c2 ys hp
    rw [rangeLoop_append, rangeLoop_cons_good fmt hp]

/-- C8 witness: a malformed middle sub-range is dropped while both siblings
are kept. -/
theorem c8_witness :
    rangeLoop "f".toList (["1.2:5.4".toList] ++ "1.x:2.2".toList :: ["1.6:5.8".toList]) =
      rangeLoop "f".toList (["1.2:5.4".toList] ++ ["1.6:5.8".toList]) :=
  c8_subrange_isolation.1 "f".toList ["1.2:5.4".toList] "1.x:2.2".toList
    ["1.6:5.8".toList] (by decide)

/-- C10: when the first (category) sub-range of a chart range spec fails to
parse, the chart is still built from the remaining sub-ranges — each later
well-formed rectangle contributes its series — and no series receives a
categories range. -/
theorem c10_category_failure (sheet : List Char) (n : Nat) (b : List Char)
    (rest : List (List Char)) (hb : parseChartPart n b = none) :
    chartLoop sheet n (b :: rest) 0 none =
      rest.flatMap (fun p =>
        match parseChartPart n p with
        | some (r1, c1, r2, c2) =>
          addDataSeries sheet (r1 - 1) (c1 - 1) (r2 - 1) (c2 - 1) none
        | none => []) ∧
    ∀ ser ∈ chartLoop sheet n (b :: rest) 0 none, ser.categories = none := by
  have h1 : chartLoop sheet n (b :: rest) 0 none = chartLoop sheet n rest 1 none := by
    simp [chartLoop, hb]
  constructor
  · rw [h1]
    exact chartLoop_bind rest 1 (by omega) none
  · rw [h1]
    exact chartLoop_none_cats rest 1 (by omega)

/-- C10 witness: malformed category sub-range `"1.x:3.1"`; the series from the
well-formed sibling is still produced, without categories. -/
theorem c10_witness :
    chartLoop "s".toList 3 ["1.x:3.1".toList, "1.2:3.2".toList] 0 none =
      [{ name := some ("s".toList, 0, 1), values := ("s".toList, 1, 1, 2, 1),
         categories := none }] := by
  have h := c10_category_failure "s".toList 3 "1.x:3.1".toList ["1.2:3.2".toList] (by decide)
  rw [h.1]
  decide

/-- C9 (counterexample): `"1,2,3"` passes the numeric test (its comma-stripped
form `123` parses as a float), yet a column-0 cell with that text and no
covering FORMAT rule is written as plain text, not as a number. -/
theorem c9_counterexample :
    isNumericString "1,2,3".toList = true ∧
    writeCellValue [] [] 5 0 "1,2,3".toList = CellOut.text "1,2,3".toList := by
  decide

/-- C9 (amended): the numeric test deletes every comma before the float parse,
so strings like `"1,2,3"`, `",,12"`, `"inf"`, `"nan"`, `"1e5"` all classify as
numeric; a cell in a column other than 0 with numeric-passing text is written
as a number carrying the comma-stripped value (custom cached format when one
is resolved, default otherwise), and a column-0 cell is written as a number
only through a covering rule whose format is cached. -/
theorem c9_amended :
    isNumericString "1,2,3".toList = true ∧
    isNumericString ",,12".toList = true ∧
    isNumericString "inf".toList = true ∧
    isNumericString "nan".toList = true ∧
    isNumericString "1e5".toList = true ∧
    (∀ (cache : List (List Char)) (rules : List FormatRule) (row col : Nat) (v : List Char),
      col ≠ 0 → isNumericString v = true →
      writeCellValue cache rules row col v =
        (if (checkCellHasCustomFormat rules row col).1 &&
            cacheHas cache (checkCellHasCustomFormat rules row col).2
         then CellOut.number (removeCommas v) (some (checkCellHasCustomFormat rules row col).2)
         else CellOut.number (removeCommas v) none)) ∧
    (∀ (cache : List (List Char)) (rules : List FormatRule) (row : Nat) (v : List Char),
      isNumericString v = true →
      (checkCellHasCustomFormat rules row 0).1 = true →
      cacheHas cache (checkCellHasCustomFormat rules row 0).2 = true →
      writeCellValue cache rules row 0 v =
        CellOut.number (removeCommas v) (some (checkCellHasCustomFormat rules row 0).2)) :=
  ⟨by decide, by decide, by decide, by decide, by decide,
   fun cache rules row col v hc hv => writeCell_numeric_nonzero cache rules row col v hc hv,
   fun cache rules row v hv h1 h2 => writeCell_col0_custom_numeric cache rules row v hv h1 h2⟩

/-- C9 witness: the amended theorem applied at a column-1 cell holding
`"1,2,3"` with no rules. -/
theorem c9_witness :
    writeCellValue [] [] 0 1 "1,2,3".toList = CellOut.number "123".toList none :=
  c9_amended.2.2.2.2.2.1 [] [] 0 1 "1,2,3".toList (by decide) (by decide)

/-! ### C3: resolution of the `E` ("to end") token -/

theorem contains_single_false {x c : Char} (h : c ≠ x) : ([x].contains c) = false := by
  rw [List.contains_eq_any_beq]
  simp [h]

theorem parseChartPart_E_2 (n : Nat) :
    parseChartPart n "2.2:E.2".toList = some (2, 2, (n : Int), 2) := by
  have hdig := @ntc_digits n
  have hrepl : replaceChar 'E' (natToChars n) "2.2:E.2".toList
      = '2' :: '.' :: '2' :: ':' :: (natToChars n ++ ['.', '2']) := rfl
  have hnotws : ∀ c ∈ ('2' :: '.' :: '2' :: ':' :: (natToChars n ++ ['.', '2']) : List Char),
      isPyWS c = false := by
    intro c hcm
    simp only [List.mem_cons, List.mem_append, List.not_mem_nil, or_false] at hcm
    rcases hcm with rfl | rfl | rfl | rfl | hcm | rfl | rfl
    · decide
    · decide
    · decide
    · decide
    · exact digit_not_pyWS (hdig c hcm)
    · decide
    · decide
  have hnotbr : ∀ c ∈ ('2' :: '.' :: '2' :: ':' :: (natToChars n ++ ['.', '2']) : List Char),
      (([']'] : List Char).contains c) = false := by
    intro c hcm
    simp only [List.mem_cons, List.mem_append, List.not_mem_nil, or_false] at hcm
    rcases hcm with rfl | rfl | rfl | rfl | hcm | rfl | rfl
    · decide
    · decide
    · decide
    · decide
    · exact contains_single_false (digit_ne_of (hdig c hcm) (by decide))
    · decide
    · decide
  have hqd : ∀ c ∈ natToChars n, (fun c => c == '.' || c == ':') c = false := by
    intro c hcm
    simp [beq_eq_false_iff_ne, digit_ne_of (hdig c hcm) (x := '.') (by decide),
          digit_ne_of (hdig c hcm) (x := ':') (by decide)]
  have hinner : charSplit (fun c => c == '.' || c == ':') ['.', '2'] = [[], ['2']] := by
    decide
  have happ := charSplit_sepFree_append hqd hinner
  rw [List.append_nil] at happ
  have h4 := charSplit_cons_sep (p := fun c => c == '.' || c == ':') (c := ':')
    (l := natToChars n ++ ['.', '2']) (by decide)
  rw [happ] at h4
  have h3 := charSplit_cons_nsep (c := '2') (by decide) h4
  have h2 := charSplit_cons_sep (p := fun c => c == '.' || c == ':') (c := '.')
    (l := '2' :: ':' :: (natToChars n ++ ['.', '2'])) (by decide)
  rw [h3] at h2
  have h1 := charSplit_cons_nsep (c := '2') (by decide) h2
  unfold parseChartPart
  rw [hrepl, stripWS_eq_self hnotws, rstripChars_eq_self hnotbr]
  unfold parse4
  rw [h1]
  show (match pyInt ['2'], pyInt ['2'], pyInt (natToChars n), pyInt ['2'] with
        | some r1, some c1, some r2, some c2 => some (r1, c1, r2, c2)
        | _, _, _, _ => none) = some (2, 2, (n : Int), 2)
  rw [pyInt_natToChars n, show pyInt ['2'] = some 2 from by decide]

/-- C3: the "to end" token is resolved asymmetrically.  A FORMAT directive has
every `E` in its range spec replaced by `str(65535)` (`MAX_EXCEL_ROWS`, the
fixed sentinel) before parsing — the parser takes no table data at all — while
a CHART rule has every `E` replaced by the realized row count `num_rows` of
the extracted table, so the resulting series bounds follow `num_rows`. -/
theorem c3_to_end_resolution :
    parseFormatLine "FORMAT1=sheetA^[E.3:E.36]^###,##0".toList =
      some ("sheetA".toList, [⟨65535, 3, 65535, 36, "###,##0".toList⟩]) ∧
    (∀ n : Nat, addSeriesToChart "sheetA".toList "1.1:3.1/2.2:E.2".toList n =
      [{ name := none,
         values := ("sheetA".toList, 1, 1, (n : Int) - 1, 1),
         categories := some ("sheetA".toList, 0, 0, 2, 0) }]) := by
  constructor
  · decide
  · intro n
    have hsplit0 : charSplit (fun c => c == '/') "1.1:3.1/2.2:E.2".toList
        = ["1.1:3.1".toList, "2.2:E.2".toList] := by decide
    have hp1 : parseChartPart n ['1', '.', '1', ':', '3', '.', '1'] = some (1, 1, 3, 1) := rfl
    have hp2 : parseChartPart n ['2', '.', '2', ':', 'E', '.', '2'] =
        some (2, 2, (n : Int), 2) := parseChartPart_E_2 n
    unfold addSeriesToChart
    rw [hsplit0]
    have step1 : chartLoop "sheetA".toList n ["1.1:3.1".toList, "2.2:E.2".toList] 0 none
        = chartLoop "sheetA".toList n ["2.2:E.2".toList] 1 (some (0, 0, 2, 0)) := by
      simp [chartLoop, hp1]
    rw [step1]
    have step2 : chartLoop "sheetA".toList n ["2.2:E.2".toList] 1 (some (0, 0, 2, 0))
        = addDataSeries "sheetA".toList 1 1 ((n : Int) - 1) 1 (some (0, 0, 2, 0)) := by
      simp [chartLoop, hp2]
    rw [step2]
    have hr1 : List.range 1 = [0] := rfl
    simp [addDataSeries, intRange, hr1]
